import Mathlib

/-!
Verification of the IPF (Iterative Proportional Fitting) enrollment
allocation program (`ipf_allocation.py`).

The solver's real-number arithmetic is embedded over `ℚ`; the zero-guard
`ε = 1e-10` becomes the exact rational `1 / 10^10`.  Cell tables are lists
of `Cell` records, one per row of the working dataframe, and the two
margin systems are association lists carrying `(year, key, county, value)`
rows; `marginLookup` composes the groupby-sum aggregation of `clean_data`
with the `.get(k, 0)` default lookup of `run_ipf`.
-/

namespace IPF

/-- One row of the working cell table: the dataframe columns of `alloc`
(`year, county, rating_area, insurer, plan, metal_tier, enrollment_est`). -/
structure Cell where
  year : Int
  county : String
  rating_area : Int
  insurer : String
  plan : String
  metal_tier : String
  enrollment_est : ℚ
deriving DecidableEq, Repr

/-- Default cell used with `List.getD`. -/
def dcell : Cell := ⟨0, "", 0, "", "", "", 0⟩

/-- The zero-guard `1e-10` of `run_ipf`, as an exact rational. -/
def eps : ℚ := 1 / 10000000000

/-- One row of an aggregated margin table (`county_insurer` with
`key = insurer`, or `county_metal` with `key = metal_tier`). -/
structure MarginRow where
  year : Int
  key : String
  county : String
  value : ℚ
deriving DecidableEq, Repr

/-- Year-sliced margin lookup: the sum of the values of all rows matching
`(yr, k, c)`, and `0` when no row matches — the composition of the
groupby-sum in `clean_data` with `lookup.get(key, 0)` in `run_ipf`. -/
def marginLookup (rows : List MarginRow) (yr : Int) (k c : String) : ℚ :=
  ((rows.filter (fun r => decide (r.year = yr ∧ r.key = k ∧ r.county = c))).map
    (fun r => r.value)).sum

/-- Group sum for Step A: `df.groupby(["insurer","county"]).transform("sum")`
evaluated at the group of `(ins, cty)`. -/
def groupSumIC (cells : List Cell) (ins cty : String) : ℚ :=
  ((cells.filter (fun x => decide (x.insurer = ins ∧ x.county = cty))).map
    (fun x => x.enrollment_est)).sum

/-- Group sum for Step B: `df.groupby(["metal_tier","county"]).transform("sum")`
evaluated at the group of `(mt, cty)`. -/
def groupSumMC (cells : List Cell) (mt cty : String) : ℚ :=
  ((cells.filter (fun x => decide (x.metal_tier = mt ∧ x.county = cty))).map
    (fun x => x.enrollment_est)).sum

/-- The per-row update of Step A: multiply by `target/sum` when the group
sum exceeds `eps`, by `0` otherwise (`np.where(group_sums > 1e-10, ...)`). -/
def applyIC (ic : String → String → ℚ) (cells : List Cell) (x : Cell) : Cell :=
  { x with enrollment_est :=
      x.enrollment_est *
        (if eps < groupSumIC cells x.insurer x.county then
          ic x.insurer x.county / groupSumIC cells x.insurer x.county
        else 0) }

/-- The per-row update of Step B. -/
def applyMC (mc : String → String → ℚ) (cells : List Cell) (x : Cell) : Cell :=
  { x with enrollment_est :=
      x.enrollment_est *
        (if eps < groupSumMC cells x.metal_tier x.county then
          mc x.metal_tier x.county / groupSumMC cells x.metal_tier x.county
        else 0) }

/-- STEP A: adjust every row to the insurer×county margins. -/
def stepA (ic : String → String → ℚ) (cells : List Cell) : List Cell :=
  cells.map (applyIC ic cells)

/-- STEP B: adjust every row to the metal_tier×county margins. -/
def stepB (mc : String → String → ℚ) (cells : List Cell) : List Cell :=
  cells.map (applyMC mc cells)

/-- One full solver iteration: Step A then Step B. -/
def oneIter (ic mc : String → String → ℚ) (cells : List Cell) : List Cell :=
  stepB mc (stepA ic cells)

/-- The estimate column of a cell table. -/
def estimates (l : List Cell) : List ℚ :=
  l.map (fun x => x.enrollment_est)

/-- The convergence statistic: the maximum of `|cur - prev| / prev` over
the positions whose `prev` exceeds `eps`, and `0` when there is none. -/
def maxRelChange (prev cur : List ℚ) : ℚ :=
  ((prev.zip cur).filterMap
    (fun pc => if eps < pc.1 then some (|pc.2 - pc.1| / pc.1) else none)).foldl max 0

/-- `n` full solver iterations. -/
def ipfIterate (ic mc : String → String → ℚ) : Nat → List Cell → List Cell
  | 0, c => c
  | n + 1, c => ipfIterate ic mc n (oneIter ic mc c)

/-- The Δ produced by iteration `k + 1` of the run started at `c`:
the relative change of the `(k+1)`-st iteration. -/
def deltaAt (ic mc : String → String → ℚ) (c : List Cell) (k : Nat) : ℚ :=
  maxRelChange (estimates (ipfIterate ic mc k c))
    (estimates (oneIter ic mc (ipfIterate ic mc k c)))

/-- The per-year solver report: final cells, converged flag, iterations
used and the last computed Δ (`none` when the loop never ran). -/
structure YearResult where
  cells : List Cell
  converged : Bool
  iterations : Nat
  finalDelta : Option ℚ
deriving DecidableEq, Repr

/-- The iteration loop of `run_ipf`, with the iteration counter and the
running `final_max_change` as accumulators and the remaining iteration
budget as fuel. -/
def ipfLoop (ic mc : String → String → ℚ) (tol : ℚ) :
    Nat → Nat → Option ℚ → List Cell → YearResult
  | 0, iter, fd, c => ⟨c, false, iter, fd⟩
  | fuel + 1, iter, fd, c =>
    let next := oneIter ic mc c
    let d := maxRelChange (estimates c) (estimates next)
    if d < tol then ⟨next, true, iter + 1, some d⟩
    else ipfLoop ic mc tol fuel (iter + 1) (some d) next

/-- The solve of one year-partition. -/
def solveYear (ic mc : String → String → ℚ) (tol : ℚ) (maxIter : Nat)
    (c : List Cell) : YearResult :=
  ipfLoop ic mc tol maxIter 0 none c

/-- `sorted(alloc["year"].unique())`. -/
def yearsOf (alloc : List Cell) : List Int :=
  ((alloc.map (fun x => x.year)).dedup).insertionSort (fun a b => a ≤ b)

/-- The per-year driver of `run_ipf`, generalized over the order in which
the years are visited: slice the cell table by year, skip empty slices,
and solve each slice against the year-sliced margin lookups. -/
def runIPFOrder (ys : List Int) (alloc : List Cell) (ci cm : List MarginRow)
    (maxIter : Nat) (tol : ℚ) : List (Int × YearResult) :=
  ys.filterMap (fun yr =>
    let df := alloc.filter (fun x => decide (x.year = yr))
    if df.isEmpty then none
    else some (yr, solveYear (marginLookup ci yr) (marginLookup cm yr) tol maxIter df))

/-- `run_ipf`: visit the sorted distinct years of the cell table. -/
def run_ipf (alloc : List Cell) (ci cm : List MarginRow) (maxIter : Nat)
    (tol : ℚ) : List (Int × YearResult) :=
  runIPFOrder (yearsOf alloc) alloc ci cm maxIter tol

/-- `clip(lower=0)` on the estimate column. -/
def clipCells (l : List Cell) : List Cell :=
  l.map (fun x => { x with enrollment_est := max x.enrollment_est 0 })

/-- The concatenated, clipped output of `run_ipf`. -/
def allocatedOutput (alloc : List Cell) (ci cm : List MarginRow)
    (maxIter : Nat) (tol : ℚ) : List Cell :=
  clipCells (((run_ipf alloc ci cm maxIter tol).map (fun p => p.2.cells)).flatten)

/-- One cleaned row of the base enrollment table. -/
structure BaseRow where
  year : Int
  rating_area : Int
  insurer : String
  plan : String
  metal_tier : String
  enrollment : ℚ
deriving DecidableEq, Repr

/-- One row of the cleaned crosswalk: a (county, rating_area) pair. -/
structure CWRow where
  county : String
  rating_area : Int
deriving DecidableEq, Repr

/-- `groupby("rating_area").transform("count")`: the number of crosswalk
rows carrying the rating area `ra`. -/
def nPerRA (cw : List CWRow) (ra : Int) : Nat :=
  (cw.filter (fun w => decide (w.rating_area = ra))).length

/-- The equal within-rating-area weight `1.0 / n_per_ra`. -/
def raWeight (cw : List CWRow) (ra : Int) : ℚ :=
  1 / (nPerRA cw ra : ℚ)

/-- Stage 1: the inner merge of base with the crosswalk on `rating_area`,
with `enrollment_est = enrollment * weight`. -/
def initial_allocation (base : List BaseRow) (cw : List CWRow) : List Cell :=
  base.flatMap (fun b =>
    (cw.filter (fun w => decide (w.rating_area = b.rating_area))).map (fun w =>
      ⟨b.year, w.county, b.rating_area, b.insurer, b.plan, b.metal_tier,
        b.enrollment * raWeight cw b.rating_area⟩))

/-- The estimate at position `i` of a cell table, as an optional value. -/
def estAt (l : List Cell) (i : Nat) : Option ℚ :=
  l[i]?.map (fun x => x.enrollment_est)

/-! ### Shared concrete data for witnesses and counterexamples -/

/-- Example insurer×county margin rows (year 2014, county `"C"`). -/
def exCI : List MarginRow := [⟨2014, "A", "C", 10⟩, ⟨2014, "B", "C", 10⟩]

/-- Example metal_tier×county margin rows (year 2014, county `"C"`). -/
def exCM : List MarginRow := [⟨2014, "X", "C", 2⟩, ⟨2014, "Y", "C", 1000⟩]

/-- Example cell table: three cells of one county, one of them holding an
estimate of exactly `eps`. -/
def exCells : List Cell :=
  [⟨2014, "C", 1, "A", "P", "X", 1⟩,
   ⟨2014, "C", 1, "A", "P", "Y", eps⟩,
   ⟨2014, "C", 1, "B", "P", "X", 1⟩]

/-- The example insurer×county lookup of year 2014. -/
def exIC : String → String → ℚ := marginLookup exCI 2014

/-- The example metal×county lookup of year 2014. -/
def exMC : String → String → ℚ := marginLookup exCM 2014

/-- The solver run on the example data (`tol = 1/1000`, three iterations
allowed). -/
def exRun : YearResult := solveYear exIC exMC (1 / 1000) 3 exCells

/-- Insurer×county margin rows with no entry for insurer `"A"`. -/
def exCIzero : List MarginRow := [⟨2014, "B", "C", 10⟩]

/-- Margin rows holding a negative insurer×county target. -/
def negCI : List MarginRow := [⟨2014, "A", "C", -1⟩]

/-- Metal×county margin rows accompanying `negCI`. -/
def negCM : List MarginRow := [⟨2014, "X", "C", 5⟩]

/-- A one-cell table fed to the solver together with `negCI`. -/
def negCells : List Cell := [⟨2014, "C", 1, "A", "P", "X", 1⟩]

/-- Margin rows making `fixCells` an exact fixed point of the iteration. -/
def fixCI : List MarginRow := [⟨2014, "A", "C", 1⟩]

/-- Metal×county margin rows accompanying `fixCI`. -/
def fixCM : List MarginRow := [⟨2014, "X", "C", 1⟩]

/-- A one-cell table that the iteration maps to itself. -/
def fixCells : List Cell := [⟨2014, "C", 1, "A", "P", "X", 1⟩]

/-- Example base table: one observation in rating area 1. -/
def exBase : List BaseRow := [⟨2014, 1, "A", "P", "X", 10⟩]

/-- Example crosswalk: two counties sharing rating area 1. -/
def exCW : List CWRow := [⟨"C", 1⟩, ⟨"D", 1⟩]

/-! ### Structural lemmas -/

lemma eps_pos : 0 < eps := by norm_num [eps]

lemma length_stepA (ic : String → String → ℚ) (cells : List Cell) :
    (stepA ic cells).length = cells.length := List.length_map _ _

lemma length_stepB (mc : String → String → ℚ) (cells : List Cell) :
    (stepB mc cells).length = cells.length := List.length_map _ _

lemma length_oneIter (ic mc : String → String → ℚ) (cells : List Cell) :
    (oneIter ic mc cells).length = cells.length := by
  simp [oneIter, length_stepA, length_stepB]

lemma length_ipfIterate (ic mc : String → String → ℚ) (n : Nat) (cells : List Cell) :
    (ipfIterate ic mc n cells).length = cells.length := by
  induction n generalizing cells with
  | zero => rfl
  | succ n ih => simp [ipfIterate, ih, length_oneIter]

/-- A key-preserving map commutes with a key-based filter. -/
lemma filter_map_pres {f : Cell → Cell} {p : Cell → Bool}
    (hp : ∀ x, p (f x) = p x) (l : List Cell) :
    (l.map f).filter p = (l.filter p).map f := by
  rw [List.filter_map]
  exact congrArg (List.map f) (List.filter_congr (fun x _ => hp x))

lemma groupSumIC_stepA (ic : String → String → ℚ) (cells : List Cell) (I C : String) :
    groupSumIC (stepA ic cells) I C
      = groupSumIC cells I C *
          (if eps < groupSumIC cells I C then ic I C / groupSumIC cells I C else 0) := by
  have hp : ∀ x : Cell,
      (decide ((applyIC ic cells x).insurer = I ∧ (applyIC ic cells x).county = C))
        = (decide (x.insurer = I ∧ x.county = C)) := by
    intro x; simp [applyIC]
  show ((((stepA ic cells)).filter
      (fun x => decide (x.insurer = I ∧ x.county = C))).map (fun x => x.enrollment_est)).sum = _
  rw [show (stepA ic cells) = cells.map (applyIC ic cells) from rfl,
      filter_map_pres (f := applyIC ic cells) hp, List.map_map]
  have h2 : ((cells.filter (fun x => decide (x.insurer = I ∧ x.county = C))).map
      ((fun x => x.enrollment_est) ∘ applyIC ic cells))
    = (cells.filter (fun x => decide (x.insurer = I ∧ x.county = C))).map
        (fun x => x.enrollment_est *
          (if eps < groupSumIC cells I C then ic I C / groupSumIC cells I C else 0)) := by
    apply List.map_congr_left
    intro x hx
    rcases List.mem_filter.mp hx with ⟨-, hpx⟩
    rcases of_decide_eq_true hpx with ⟨hx1, hx2⟩
    simp [Function.comp, applyIC, hx1, hx2]
  rw [h2, List.sum_map_mul_right]
  rfl

lemma groupSumMC_stepB (mc : String → String → ℚ) (cells : List Cell) (M C : String) :
    groupSumMC (stepB mc cells) M C
      = groupSumMC cells M C *
          (if eps < groupSumMC cells M C then mc M C / groupSumMC cells M C else 0) := by
  have hp : ∀ x : Cell,
      (decide ((applyMC mc cells x).metal_tier = M ∧ (applyMC mc cells x).county = C))
        = (decide (x.metal_tier = M ∧ x.county = C)) := by
    intro x; simp [applyMC]
  show ((((stepB mc cells)).filter
      (fun x => decide (x.metal_tier = M ∧ x.county = C))).map (fun x => x.enrollment_est)).sum = _
  rw [show (stepB mc cells) = cells.map (applyMC mc cells) from rfl,
      filter_map_pres (f := applyMC mc cells) hp, List.map_map]
  have h2 : ((cells.filter (fun x => decide (x.metal_tier = M ∧ x.county = C))).map
      ((fun x => x.enrollment_est) ∘ applyMC mc cells))
    = (cells.filter (fun x => decide (x.metal_tier = M ∧ x.county = C))).map
        (fun x => x.enrollment_est *
          (if eps < groupSumMC cells M C then mc M C / groupSumMC cells M C else 0)) := by
    apply List.map_congr_left
    intro x hx
    rcases List.mem_filter.mp hx with ⟨-, hpx⟩
    rcases of_decide_eq_true hpx with ⟨hx1, hx2⟩
    simp [Function.comp, applyMC, hx1, hx2]
  rw [h2, List.sum_map_mul_right]
  rfl

lemma groupSumIC_stepA_of_pos (ic : String → String → ℚ) (cells : List Cell)
    (I C : String) (h : eps < groupSumIC cells I C) :
    groupSumIC (stepA ic cells) I C = ic I C := by
  rw [groupSumIC_stepA, if_pos h, mul_comm,
    div_mul_cancel₀ _ (ne_of_gt (lt_trans eps_pos h))]

lemma groupSumMC_stepB_of_pos (mc : String → String → ℚ) (cells : List Cell)
    (M C : String) (h : eps < groupSumMC cells M C) :
    groupSumMC (stepB mc cells) M C = mc M C := by
  rw [groupSumMC_stepB, if_pos h, mul_comm,
    div_mul_cancel₀ _ (ne_of_gt (lt_trans eps_pos h))]

lemma ipfIterate_succ_outer (ic mc : String → String → ℚ) (n : Nat) (c : List Cell) :
    ipfIterate ic mc (n + 1) c = oneIter ic mc (ipfIterate ic mc n c) := by
  induction n generalizing c with
  | zero => rfl
  | succ n ih => exact ih (oneIter ic mc c)

/-- Summing a quantity over a list equals summing it fiberwise over the
distinct values of a key. -/
lemma sum_map_fiberwise {κ : Type} [DecidableEq κ] (key : Cell → κ) (g : Cell → ℚ)
    (l : List Cell) :
    ((l.map key).toFinset).sum
      (fun k => ((l.filter (fun x => decide (key x = k))).map g).sum)
      = (l.map g).sum := by
  induction l with
  | nil => simp
  | cons a t ih =>
    have hsplit : ∀ k : κ,
        (((a :: t).filter (fun x => decide (key x = k))).map g).sum
          = (if key a = k then g a else 0)
            + ((t.filter (fun x => decide (key x = k))).map g).sum := by
      intro k
      by_cases h : key a = k
      · simp [List.filter_cons, h]
      · simp [List.filter_cons, h]
    simp only [List.map_cons, List.toFinset_cons]
    rw [Finset.sum_congr rfl (fun k _ => hsplit k), Finset.sum_add_distrib,
      Finset.sum_ite_eq, if_pos (Finset.mem_insert_self _ _)]
    by_cases hmem : key a ∈ (t.map key).toFinset
    · rw [Finset.insert_eq_self.mpr hmem, ih]
      simp
    · rw [Finset.sum_insert hmem]
      have hfe : t.filter (fun x => decide (key x = key a)) = [] := by
        rw [List.filter_eq_nil_iff]
        intro x hx
        simp only [decide_eq_true_eq]
        intro h
        exact hmem (List.mem_toFinset.mpr (h ▸ List.mem_map_of_mem key hx))
      rw [hfe, ih]
      simp

/-- The filter of the metal×county group written through the pair key. -/
lemma groupSumMC_fiber (cells : List Cell) (k : String × String) :
    groupSumMC cells k.1 k.2
      = ((cells.filter (fun x => decide ((x.metal_tier, x.county) = k))).map
          (fun x => x.enrollment_est)).sum := by
  unfold groupSumMC
  congr 2
  apply List.filter_congr
  intro x _
  simp [Prod.ext_iff]

/-- The metal×county keys are untouched by Step B. -/
lemma keys_stepB (mc : String → String → ℚ) (cells : List Cell) :
    (stepB mc cells).map (fun x => (x.metal_tier, x.county))
      = cells.map (fun x => (x.metal_tier, x.county)) := by
  unfold stepB
  rw [List.map_map]
  exact List.map_congr_left (fun x _ => rfl)

/-- The total mass after Step B is the sum of the MC targets of the groups
whose pre-step sum exceeded `eps`. -/
lemma stepB_total_mass (mc : String → String → ℚ) (cells : List Cell) :
    (estimates (stepB mc cells)).sum
      = ((cells.map (fun x => (x.metal_tier, x.county))).toFinset).sum
          (fun k => if eps < groupSumMC cells k.1 k.2 then mc k.1 k.2 else 0) := by
  have h0 := sum_map_fiberwise (fun y : Cell => (y.metal_tier, y.county))
    (fun x => x.enrollment_est) (stepB mc cells)
  rw [keys_stepB] at h0
  have h1 : (estimates (stepB mc cells)).sum
      = ((cells.map (fun x => (x.metal_tier, x.county))).toFinset).sum
          (fun k => groupSumMC (stepB mc cells) k.1 k.2) := by
    unfold estimates
    rw [← h0]
    exact Finset.sum_congr rfl (fun k _ => (groupSumMC_fiber (stepB mc cells) k).symm)
  rw [h1]
  apply Finset.sum_congr rfl
  intro k _
  by_cases h : eps < groupSumMC cells k.1 k.2
  · rw [groupSumMC_stepB_of_pos mc cells k.1 k.2 h, if_pos h]
  · rw [if_neg h, groupSumMC_stepB, if_neg h, mul_zero]

/-! ### Claim theorems -/

/-- C1: in every IPF scaling step (Step A over insurer×county groups,
Step B over metal_tier×county groups), for every group present in the cell
table: if the group's current sum of estimates is strictly greater than
`eps = 1e-10`, every cell in the group is multiplied by `target/sum` (so
the group then sums to the target); otherwise every cell in the group is
set to exactly `0`. -/
theorem C1_step_scaling (ic mc : String → String → ℚ) (cells : List Cell) :
    (stepA ic cells = cells.map (applyIC ic cells)) ∧
    (stepB mc cells = cells.map (applyMC mc cells)) ∧
    (∀ x : Cell,
      (eps < groupSumIC cells x.insurer x.county →
        (applyIC ic cells x).enrollment_est
          = x.enrollment_est * (ic x.insurer x.county / groupSumIC cells x.insurer x.county)) ∧
      (¬ eps < groupSumIC cells x.insurer x.county →
        (applyIC ic cells x).enrollment_est = 0) ∧
      (eps < groupSumMC cells x.metal_tier x.county →
        (applyMC mc cells x).enrollment_est
          = x.enrollment_est * (mc x.metal_tier x.county / groupSumMC cells x.metal_tier x.county)) ∧
      (¬ eps < groupSumMC cells x.metal_tier x.county →
        (applyMC mc cells x).enrollment_est = 0)) ∧
    (∀ I C, eps < groupSumIC cells I C → groupSumIC (stepA ic cells) I C = ic I C) ∧
    (∀ M C, eps < groupSumMC cells M C → groupSumMC (stepB mc cells) M C = mc M C) := by
  refine ⟨rfl, rfl, ?_, groupSumIC_stepA_of_pos ic cells, groupSumMC_stepB_of_pos mc cells⟩
  intro x
  refine ⟨fun h => ?_, fun h => ?_, fun h => ?_, fun h => ?_⟩
  · simp [applyIC, if_pos h]
  · simp [applyIC, if_neg h]
  · simp [applyMC, if_pos h]
  · simp [applyMC, if_neg h]

/-- Witness for C1 at the concrete example data. -/
theorem C1_step_scaling_witness :
    eps < groupSumIC exCells "A" "C" ∧
    groupSumIC (stepA (marginLookup exCI 2014) exCells) "A" "C"
      = marginLookup exCI 2014 "A" "C" :=
  ⟨by simp [eps, groupSumIC, exCells],
   (C1_step_scaling (marginLookup exCI 2014) (marginLookup exCM 2014) exCells).2.2.2.1
     "A" "C" (by simp [eps, groupSumIC, exCells])⟩

/-- C10: after Step B of any iteration, every (metal_tier, county) group
whose sum of estimates immediately before Step B exceeded `eps = 1e-10`
sums exactly to the MC target of that group; hence the partition's total
mass at the end of every iteration equals the sum of the MC targets over
the groups that retained mass. -/
theorem C10_stepB_exact_margins (mc : String → String → ℚ) (cells : List Cell) :
    (∀ M C, eps < groupSumMC cells M C → groupSumMC (stepB mc cells) M C = mc M C) ∧
    ((estimates (stepB mc cells)).sum
      = ((cells.map (fun x => (x.metal_tier, x.county))).toFinset).sum
          (fun k => if eps < groupSumMC cells k.1 k.2 then mc k.1 k.2 else 0)) ∧
    (∀ (ic : String → String → ℚ) (n : Nat) (c : List Cell),
      (estimates (ipfIterate ic mc (n + 1) c)).sum
        = (((stepA ic (ipfIterate ic mc n c)).map
              (fun x => (x.metal_tier, x.county))).toFinset).sum
            (fun k => if eps < groupSumMC (stepA ic (ipfIterate ic mc n c)) k.1 k.2
              then mc k.1 k.2 else 0)) := by
  refine ⟨groupSumMC_stepB_of_pos mc cells, stepB_total_mass mc cells, ?_⟩
  intro ic n c
  rw [ipfIterate_succ_outer]
  exact stepB_total_mass mc (stepA ic (ipfIterate ic mc n c))

/-- Witness for C10 at the concrete example data. -/
theorem C10_stepB_exact_margins_witness :
    eps < groupSumMC exCells "X" "C" ∧
    groupSumMC (stepB exMC exCells) "X" "C" = exMC "X" "C" :=
  ⟨by simp [eps, groupSumMC, exCells]; norm_num,
   (C10_stepB_exact_margins exMC exCells).1 "X" "C"
     (by simp [eps, groupSumMC, exCells]; norm_num)⟩

/-- A cell whose estimate is `0` keeps estimate `0` through Step A. -/
lemma estAt_stepA_zero (ic : String → String → ℚ) (l : List Cell) (i : Nat)
    (h : estAt l i = some 0) : estAt (stepA ic l) i = some 0 := by
  unfold estAt stepA at *
  rw [List.getElem?_map] at *
  cases hx : l[i]? with
  | none => rw [hx] at h; simp at h
  | some x =>
    rw [hx] at h
    have hx0 : x.enrollment_est = 0 := by simpa using h
    simp [applyIC, hx0]

/-- A cell whose estimate is `0` keeps estimate `0` through Step B. -/
lemma estAt_stepB_zero (mc : String → String → ℚ) (l : List Cell) (i : Nat)
    (h : estAt l i = some 0) : estAt (stepB mc l) i = some 0 := by
  unfold estAt stepB at *
  rw [List.getElem?_map] at *
  cases hx : l[i]? with
  | none => rw [hx] at h; simp at h
  | some x =>
    rw [hx] at h
    have hx0 : x.enrollment_est = 0 := by simpa using h
    simp [applyMC, hx0]

/-- A cell whose estimate is `0` keeps estimate `0` through any number of
further full iterations. -/
lemma estAt_ipfIterate_zero (ic mc : String → String → ℚ) (n : Nat)
    (l : List Cell) (i : Nat) (h : estAt l i = some 0) :
    estAt (ipfIterate ic mc n l) i = some 0 := by
  induction n generalizing l with
  | zero => exact h
  | succ n ih =>
    exact ih (stepB mc (stepA ic l)) (estAt_stepB_zero mc _ i (estAt_stepA_zero ic l i h))

/-- C4: for every insurer×county group whose IC target is 0 (including the
case of a key absent from the margin index, which looks up as 0) and whose
current mass exceeds `eps`, a single application of Step A sets every cell
in the group to exactly 0, and every such cell remains exactly 0 through
all subsequent Step A and Step B applications of the run. -/
theorem C4_zero_group_absorption (ic mc : String → String → ℚ) (cells : List Cell)
    (i : Nat) (x : Cell) (hx : cells[i]? = some x)
    (hzero : ic x.insurer x.county = 0)
    (hmass : eps < groupSumIC cells x.insurer x.county) :
    (estAt (stepA ic cells) i = some 0) ∧
    (∀ n : Nat, estAt (ipfIterate ic mc n (stepB mc (stepA ic cells))) i = some 0) ∧
    (∀ (rows : List MarginRow) (yr : Int) (k c : String),
      (∀ r ∈ rows, ¬(r.year = yr ∧ r.key = k ∧ r.county = c)) →
      marginLookup rows yr k c = 0) := by
  have h1 : estAt (stepA ic cells) i = some 0 := by
    unfold estAt stepA
    rw [List.getElem?_map, hx]
    have hz : (applyIC ic cells x).enrollment_est = 0 := by
      simp only [applyIC]
      rw [if_pos hmass, hzero, zero_div, mul_zero]
    simp [hz]
  refine ⟨h1, ?_, ?_⟩
  · intro n
    exact estAt_ipfIterate_zero ic mc n _ i (estAt_stepB_zero mc _ i h1)
  · intro rows yr k c habs
    unfold marginLookup
    have : rows.filter (fun r => decide (r.year = yr ∧ r.key = k ∧ r.county = c)) = [] := by
      rw [List.filter_eq_nil_iff]
      intro r hr
      simpa using habs r hr
    rw [this]
    rfl

/-- Witness for C4 at the concrete example data: insurer `"A"` has no row
in `exCIzero`, so its target looks up as `0` and Step A zeroes its cells. -/
theorem C4_zero_group_absorption_witness :
    exCells[0]? = some ⟨2014, "C", 1, "A", "P", "X", 1⟩ ∧
    marginLookup exCIzero 2014 "A" "C" = 0 ∧
    eps < groupSumIC exCells "A" "C" ∧
    estAt (stepA (marginLookup exCIzero 2014) exCells) 0 = some 0 :=
  ⟨by simp [exCells], by simp [marginLookup, exCIzero], by simp [eps, groupSumIC, exCells],
   (C4_zero_group_absorption (marginLookup exCIzero 2014) exMC exCells 0
      ⟨2014, "C", 1, "A", "P", "X", 1⟩ (by simp [exCells])
      (by simp [marginLookup, exCIzero]) (by simp [eps, groupSumIC, exCells])).1⟩

/-- A lookup over non-negative margin rows is non-negative. -/
lemma marginLookup_nonneg (rows : List MarginRow) (h : ∀ r ∈ rows, 0 ≤ r.value)
    (yr : Int) (k c : String) : 0 ≤ marginLookup rows yr k c := by
  unfold marginLookup
  apply List.sum_nonneg
  intro q hq
  rcases List.mem_map.mp hq with ⟨r, hr, rfl⟩
  exact h r (List.mem_filter.mp hr).1

/-- Step A preserves non-negativity of the estimates when the IC targets
are non-negative. -/
lemma stepA_nonneg (ic : String → String → ℚ) (cells : List Cell)
    (hc : ∀ x ∈ cells, 0 ≤ x.enrollment_est) (hic : ∀ I C, 0 ≤ ic I C) :
    ∀ y ∈ stepA ic cells, 0 ≤ y.enrollment_est := by
  intro y hy
  rcases List.mem_map.mp hy with ⟨x, hxm, rfl⟩
  simp only [applyIC]
  apply mul_nonneg (hc x hxm)
  by_cases h : eps < groupSumIC cells x.insurer x.county
  · rw [if_pos h]
    exact div_nonneg (hic _ _) (le_of_lt (lt_trans eps_pos h))
  · rw [if_neg h]

/-- Step B preserves non-negativity of the estimates when the MC targets
are non-negative. -/
lemma stepB_nonneg (mc : String → String → ℚ) (cells : List Cell)
    (hc : ∀ x ∈ cells, 0 ≤ x.enrollment_est) (hmc : ∀ M C, 0 ≤ mc M C) :
    ∀ y ∈ stepB mc cells, 0 ≤ y.enrollment_est := by
  intro y hy
  rcases List.mem_map.mp hy with ⟨x, hxm, rfl⟩
  simp only [applyMC]
  apply mul_nonneg (hc x hxm)
  by_cases h : eps < groupSumMC cells x.metal_tier x.county
  · rw [if_pos h]
    exact div_nonneg (hmc _ _) (le_of_lt (lt_trans eps_pos h))
  · rw [if_neg h]

/-- Every iterate keeps the estimates non-negative. -/
lemma ipfIterate_nonneg (ic mc : String → String → ℚ)
    (hic : ∀ I C, 0 ≤ ic I C) (hmc : ∀ M C, 0 ≤ mc M C) (n : Nat) :
    ∀ cells : List Cell, (∀ x ∈ cells, 0 ≤ x.enrollment_est) →
    ∀ y ∈ ipfIterate ic mc n cells, 0 ≤ y.enrollment_est := by
  induction n with
  | zero => intro cells hc; exact hc
  | succ n ih =>
    intro cells hc
    exact ih (oneIter ic mc cells)
      (stepB_nonneg mc _ (stepA_nonneg ic cells hc hic) hmc)

/-- The solver loop keeps the estimates non-negative. -/
lemma ipfLoop_nonneg (ic mc : String → String → ℚ) (tol : ℚ)
    (hic : ∀ I C, 0 ≤ ic I C) (hmc : ∀ M C, 0 ≤ mc M C) :
    ∀ (fuel iter : Nat) (fd : Option ℚ) (cells : List Cell),
      (∀ x ∈ cells, 0 ≤ x.enrollment_est) →
      ∀ y ∈ (ipfLoop ic mc tol fuel iter fd cells).cells, 0 ≤ y.enrollment_est := by
  intro fuel
  induction fuel with
  | zero => intro iter fd cells hc; exact hc
  | succ n ih =>
    intro iter fd cells hc
    show ∀ y ∈ (if maxRelChange (estimates cells) (estimates (oneIter ic mc cells)) < tol
        then YearResult.mk (oneIter ic mc cells) true (iter + 1)
              (some (maxRelChange (estimates cells) (estimates (oneIter ic mc cells))))
        else ipfLoop ic mc tol n (iter + 1)
              (some (maxRelChange (estimates cells) (estimates (oneIter ic mc cells))))
              (oneIter ic mc cells)).cells, 0 ≤ y.enrollment_est
    by_cases h : maxRelChange (estimates cells) (estimates (oneIter ic mc cells)) < tol
    · rw [if_pos h]
      exact stepB_nonneg mc _ (stepA_nonneg ic cells hc hic) hmc
    · rw [if_neg h]
      exact ih (iter + 1) _ (oneIter ic mc cells)
        (stepB_nonneg mc _ (stepA_nonneg ic cells hc hic) hmc)

/-- Clipping at zero is the identity on non-negative estimates. -/
lemma clipCells_of_nonneg (l : List Cell) (h : ∀ x ∈ l, 0 ≤ x.enrollment_est) :
    clipCells l = l := by
  unfold clipCells
  conv_rhs => rw [← List.map_id l]
  apply List.map_congr_left
  intro x hx
  have hm : max x.enrollment_est 0 = x.enrollment_est := max_eq_left (h x hx)
  rw [hm]
  rfl

/-- C3: for every input where all initial cell estimates and all margin
target values are non-negative, every cell's estimate is non-negative
after every Step A, after every Step B, at every iteration, and in the
final output — the final clip to ≥ 0 changes nothing. -/
theorem C3_nonnegativity (alloc : List Cell) (ci cm : List MarginRow)
    (maxIter : Nat) (tol : ℚ)
    (hc : ∀ x ∈ alloc, 0 ≤ x.enrollment_est)
    (hci : ∀ r ∈ ci, 0 ≤ r.value) (hcm : ∀ r ∈ cm, 0 ≤ r.value) :
    (∀ (yr : Int) (n : Nat),
      ∀ y ∈ stepA (marginLookup ci yr)
          (ipfIterate (marginLookup ci yr) (marginLookup cm yr) n
            (alloc.filter (fun a => decide (a.year = yr)))), 0 ≤ y.enrollment_est) ∧
    (∀ (yr : Int) (n : Nat),
      ∀ y ∈ stepB (marginLookup cm yr)
          (stepA (marginLookup ci yr)
            (ipfIterate (marginLookup ci yr) (marginLookup cm yr) n
              (alloc.filter (fun a => decide (a.year = yr))))), 0 ≤ y.enrollment_est) ∧
    (∀ (yr : Int) (n : Nat),
      ∀ y ∈ ipfIterate (marginLookup ci yr) (marginLookup cm yr) n
          (alloc.filter (fun a => decide (a.year = yr))), 0 ≤ y.enrollment_est) ∧
    (∀ p ∈ run_ipf alloc ci cm maxIter tol, ∀ y ∈ p.2.cells, 0 ≤ y.enrollment_est) ∧
    allocatedOutput alloc ci cm maxIter tol
      = ((run_ipf alloc ci cm maxIter tol).map (fun p => p.2.cells)).flatten := by
  have hslice : ∀ yr : Int, ∀ x ∈ alloc.filter (fun a => decide (a.year = yr)),
      0 ≤ x.enrollment_est := by
    intro yr x hxm
    exact hc x (List.mem_filter.mp hxm).1
  have hiter : ∀ (yr : Int) (n : Nat),
      ∀ y ∈ ipfIterate (marginLookup ci yr) (marginLookup cm yr) n
        (alloc.filter (fun a => decide (a.year = yr))), 0 ≤ y.enrollment_est :=
    fun yr n => ipfIterate_nonneg _ _ (marginLookup_nonneg ci hci yr)
      (marginLookup_nonneg cm hcm yr) n _ (hslice yr)
  have hrun : ∀ p ∈ run_ipf alloc ci cm maxIter tol,
      ∀ y ∈ p.2.cells, 0 ≤ y.enrollment_est := by
    intro p hp
    rcases List.mem_filterMap.mp hp with ⟨yr, hyr, heq⟩
    by_cases hemp : (alloc.filter (fun x => decide (x.year = yr))).isEmpty
    · rw [if_pos hemp] at heq
      exact absurd heq (by simp)
    · rw [if_neg hemp] at heq
      cases heq
      exact ipfLoop_nonneg _ _ tol (marginLookup_nonneg ci hci yr)
        (marginLookup_nonneg cm hcm yr) maxIter 0 none _ (hslice yr)
  refine ⟨?_, ?_, hiter, hrun, ?_⟩
  · intro yr n
    exact stepA_nonneg _ _ (hiter yr n) (marginLookup_nonneg ci hci yr)
  · intro yr n
    exact stepB_nonneg _ _
      (stepA_nonneg _ _ (hiter yr n) (marginLookup_nonneg ci hci yr))
      (marginLookup_nonneg cm hcm yr)
  · unfold allocatedOutput
    apply clipCells_of_nonneg
    intro x hxm
    rcases List.mem_flatten.mp hxm with ⟨l, hl, hxl⟩
    rcases List.mem_map.mp hl with ⟨p, hp, rfl⟩
    exact hrun p hp x hxl

/-- Witness for C3 at the concrete example data. -/
theorem C3_nonnegativity_witness :
    allocatedOutput exCells exCI exCM 3 (1 / 1000)
      = ((run_ipf exCells exCI exCM 3 (1 / 1000)).map (fun p => p.2.cells)).flatten :=
  (C3_nonnegativity exCells exCI exCM 3 (1 / 1000)
    (by intro x hx; fin_cases hx <;> norm_num [eps])
    (by intro r hr; fin_cases hr <;> norm_num)
    (by intro r hr; fin_cases hr <;> norm_num)).2.2.2.2

/-- The initial value is below a `foldl max`. -/
lemma foldl_max_init_le (l : List ℚ) (a : ℚ) : a ≤ l.foldl max a := by
  induction l generalizing a with
  | nil => exact le_refl a
  | cons x t ih => exact le_trans (le_max_left a x) (ih (max a x))

/-- Every member is below a `foldl max`. -/
lemma foldl_max_le_of_mem (l : List ℚ) (a : ℚ) :
    ∀ x ∈ l, x ≤ l.foldl max a := by
  induction l generalizing a with
  | nil => intro x hx; cases hx
  | cons y t ih =>
    intro x hx
    rcases List.mem_cons.mp hx with rfl | hxt
    · exact le_trans (le_max_right a x) (foldl_max_init_le t (max a x))
    · exact ih (max a y) x hxt

/-- A `foldl max` is the initial value or a member. -/
lemma foldl_max_choice (l : List ℚ) (a : ℚ) :
    l.foldl max a = a ∨ l.foldl max a ∈ l := by
  induction l generalizing a with
  | nil => exact Or.inl rfl
  | cons x t ih =>
    rcases ih (max a x) with h | h
    · rcases max_choice a x with hm | hm
      · exact Or.inl (by rw [List.foldl_cons, h, hm])
      · exact Or.inr (by rw [List.foldl_cons, h, hm]; exact List.mem_cons_self x t)
    · exact Or.inr (List.mem_cons_of_mem x h)

/-- The ratio list underlying `maxRelChange`. -/
lemma mem_relChange_of_lt (prev cur : List ℚ) (i : Nat)
    (hi : i < prev.length) (hic : i < cur.length) (hp : eps < prev.getD i 0) :
    |cur.getD i 0 - prev.getD i 0| / prev.getD i 0 ∈
      ((prev.zip cur).filterMap
        (fun pc => if eps < pc.1 then some (|pc.2 - pc.1| / pc.1) else none)) := by
  have hlen : i < (prev.zip cur).length := by
    rw [List.length_zip]
    exact lt_min hi hic
  apply List.mem_filterMap.mpr
  refine ⟨(prev.zip cur).get ⟨i, hlen⟩, List.get_mem _ _ hlen, ?_⟩
  have hz : (prev.zip cur).get ⟨i, hlen⟩ = (prev.getD i 0, cur.getD i 0) := by
    rw [List.get_eq_getElem, List.getElem_zip, List.getD_eq_getElem prev 0 hi,
      List.getD_eq_getElem cur 0 hic]
  rw [hz, if_pos hp]

/-- C2: the per-iteration convergence statistic Δ equals the maximum over
all cells whose estimate at the start of the iteration exceeds
`eps = 1e-10` of `|current − prior| / prior`, where `current` is the
estimate after Step B of the same iteration; cells with prior ≤ `eps` are
excluded; and if no cell has prior > `eps` then Δ = 0. -/
theorem C2_convergence_statistic (ic mc : String → String → ℚ) (c : List Cell) :
    (∀ i : Nat, i < c.length → eps < (estimates c).getD i 0 →
      |(estimates (oneIter ic mc c)).getD i 0 - (estimates c).getD i 0|
          / (estimates c).getD i 0
        ≤ maxRelChange (estimates c) (estimates (oneIter ic mc c))) ∧
    ((∀ i : Nat, i < c.length → ¬ eps < (estimates c).getD i 0) →
      maxRelChange (estimates c) (estimates (oneIter ic mc c)) = 0) ∧
    ((∃ i : Nat, i < c.length ∧ eps < (estimates c).getD i 0) →
      ∃ i : Nat, i < c.length ∧ eps < (estimates c).getD i 0 ∧
        maxRelChange (estimates c) (estimates (oneIter ic mc c))
          = |(estimates (oneIter ic mc c)).getD i 0 - (estimates c).getD i 0|
              / (estimates c).getD i 0) := by
  have hlp : (estimates c).length = c.length := List.length_map _ _
  have hlc : (estimates (oneIter ic mc c)).length = c.length := by
    rw [show estimates (oneIter ic mc c) = (oneIter ic mc c).map (fun x => x.enrollment_est)
      from rfl, List.length_map, length_oneIter]
  have hub : ∀ i : Nat, i < c.length → eps < (estimates c).getD i 0 →
      |(estimates (oneIter ic mc c)).getD i 0 - (estimates c).getD i 0|
          / (estimates c).getD i 0
        ≤ maxRelChange (estimates c) (estimates (oneIter ic mc c)) := by
    intro i hi hp
    apply foldl_max_le_of_mem
    exact mem_relChange_of_lt (estimates c) (estimates (oneIter ic mc c)) i
      (hlp ▸ hi) (hlc ▸ hi) hp
  refine ⟨hub, ?_, ?_⟩
  · intro hall
    unfold maxRelChange
    have hnil : ((estimates c).zip (estimates (oneIter ic mc c))).filterMap
        (fun pc => if eps < pc.1 then some (|pc.2 - pc.1| / pc.1) else none) = [] := by
      rw [List.filterMap_eq_nil_iff]
      intro pc hpc
      rcases List.mem_iff_getElem.mp hpc with ⟨i, hlen, hget⟩
      have hilt : i < c.length := by
        rw [List.length_zip, hlp, hlc] at hlen
        exact lt_of_le_of_lt (le_refl i) (lt_min_iff.mp hlen).1
      have hp1 : pc.1 = (estimates c).getD i 0 := by
        rw [← hget, List.getElem_zip, List.getD_eq_getElem (estimates c) 0 (hlp ▸ hilt)]
      rw [if_neg]
      rw [hp1]
      exact hall i hilt
    rw [hnil]
    rfl
  · intro hex
    rcases hex with ⟨i0, hi0, hp0⟩
    rcases foldl_max_choice (((estimates c).zip (estimates (oneIter ic mc c))).filterMap
        (fun pc => if eps < pc.1 then some (|pc.2 - pc.1| / pc.1) else none)) 0 with hz | hmem
    · refine ⟨i0, hi0, hp0, ?_⟩
      have hle := hub i0 hi0 hp0
      have hge : 0 ≤ |(estimates (oneIter ic mc c)).getD i0 0 - (estimates c).getD i0 0|
          / (estimates c).getD i0 0 :=
        div_nonneg (abs_nonneg _) (le_of_lt (lt_trans eps_pos hp0))
      have hΔ : maxRelChange (estimates c) (estimates (oneIter ic mc c)) = 0 := hz
      rw [hΔ]
      exact le_antisymm hge (hΔ ▸ hle)
    · rcases List.mem_filterMap.mp hmem with ⟨pc, hpc, hsome⟩
      rcases List.mem_iff_getElem.mp hpc with ⟨i, hlen, hget⟩
      have hilt : i < c.length := by
        rw [List.length_zip, hlp, hlc] at hlen
        exact (lt_min_iff.mp hlen).1
      have hp1 : pc.1 = (estimates c).getD i 0 := by
        rw [← hget, List.getElem_zip, List.getD_eq_getElem (estimates c) 0 (hlp ▸ hilt)]
      have hp2 : pc.2 = (estimates (oneIter ic mc c)).getD i 0 := by
        rw [← hget, List.getElem_zip,
          List.getD_eq_getElem (estimates (oneIter ic mc c)) 0 (hlc ▸ hilt)]
      by_cases hcond : eps < pc.1
      · rw [if_pos hcond] at hsome
        refine ⟨i, hilt, hp1 ▸ hcond, ?_⟩
        rw [← hp1, ← hp2]
        exact (Option.some_injective _ hsome).symm
      · rw [if_neg hcond] at hsome
        cases hsome

/-- Witness for C2 at the concrete example data. -/
theorem C2_convergence_statistic_witness :
    (0 : Nat) < exCells.length ∧ eps < (estimates exCells).getD 0 0 ∧
    |(estimates (oneIter exIC exMC exCells)).getD 0 0 - (estimates exCells).getD 0 0|
        / (estimates exCells).getD 0 0
      ≤ maxRelChange (estimates exCells) (estimates (oneIter exIC exMC exCells)) :=
  ⟨by norm_num [exCells], by simp [estimates, exCells]; norm_num [eps],
   (C2_convergence_statistic exIC exMC exCells).1 0 (by norm_num [exCells])
     (by simp [estimates, exCells]; norm_num [eps])⟩

/-- Membership in `yearsOf` is membership among the years of the table. -/
lemma mem_years_iff (alloc : List Cell) (y : Int) :
    y ∈ yearsOf alloc ↔ y ∈ alloc.map (fun x => x.year) := by
  unfold yearsOf
  rw [(List.perm_insertionSort _ _).mem_iff, List.mem_dedup]

/-- The year slice of a year occurring in the table is nonempty. -/
lemma filter_year_ne_nil (alloc : List Cell) (y : Int)
    (hy : y ∈ alloc.map (fun x => x.year)) :
    (alloc.filter (fun x => decide (x.year = y))).isEmpty = false := by
  rcases List.mem_map.mp hy with ⟨x, hx, rfl⟩
  have hmem : x ∈ alloc.filter (fun a => decide (a.year = x.year)) :=
    List.mem_filter.mpr ⟨hx, by simp⟩
  exact List.isEmpty_eq_false.mpr (List.ne_nil_of_mem hmem)

/-- Every year of the table contributes its solver result to the output. -/
lemma solve_mem_run (alloc : List Cell) (ci cm : List MarginRow)
    (maxIter : Nat) (tol : ℚ) (y : Int) (hy : y ∈ yearsOf alloc) :
    (y, solveYear (marginLookup ci y) (marginLookup cm y) tol maxIter
        (alloc.filter (fun x => decide (x.year = y))))
      ∈ run_ipf alloc ci cm maxIter tol := by
  unfold run_ipf runIPFOrder
  apply List.mem_filterMap.mpr
  refine ⟨y, hy, ?_⟩
  have hne := filter_year_ne_nil alloc y ((mem_years_iff alloc y).mp hy)
  show (if (alloc.filter (fun x => decide (x.year = y))).isEmpty = true then none
      else some (y, solveYear (marginLookup ci y) (marginLookup cm y) tol maxIter
        (alloc.filter (fun x => decide (x.year = y)))))
    = some (y, solveYear (marginLookup ci y) (marginLookup cm y) tol maxIter
        (alloc.filter (fun x => decide (x.year = y))))
  rw [hne]
  rfl
lemma ipfIterate_zero (ic mc : String → String → ℚ) (c : List Cell) :
    ipfIterate ic mc 0 c = c := rfl

lemma ipfIterate_succ_inner (ic mc : String → String → ℚ) (n : Nat) (c : List Cell) :
    ipfIterate ic mc (n + 1) c = ipfIterate ic mc n (oneIter ic mc c) := rfl

lemma deltaAt_zero (ic mc : String → String → ℚ) (c : List Cell) :
    deltaAt ic mc c 0 = maxRelChange (estimates c) (estimates (oneIter ic mc c)) := rfl

lemma deltaAt_shift (ic mc : String → String → ℚ) (c : List Cell) (j : Nat) :
    deltaAt ic mc (oneIter ic mc c) j = deltaAt ic mc c (j + 1) := by
  unfold deltaAt
  rw [ipfIterate_succ_inner]

lemma ipfLoop_zero (ic mc : String → String → ℚ) (tol : ℚ) (iter : Nat)
    (fd : Option ℚ) (c : List Cell) :
    ipfLoop ic mc tol 0 iter fd c = ⟨c, false, iter, fd⟩ := rfl

lemma ipfLoop_succ (ic mc : String → String → ℚ) (tol : ℚ) (n iter : Nat)
    (fd : Option ℚ) (c : List Cell) :
    ipfLoop ic mc tol (n + 1) iter fd c
      = if deltaAt ic mc c 0 < tol
        then ⟨oneIter ic mc c, true, iter + 1, some (deltaAt ic mc c 0)⟩
        else ipfLoop ic mc tol n (iter + 1) (some (deltaAt ic mc c 0))
               (oneIter ic mc c) := by
  rw [deltaAt_zero]
  rfl
/-- Full characterization of the solver loop: the loop stops at the first
iteration whose Δ is below `tol`, reporting that iteration's index and Δ;
otherwise it exhausts its budget, keeping the last Δ. -/
lemma ipfLoop_spec (ic mc : String → String → ℚ) (tol : ℚ) :
    ∀ (fuel iter : Nat) (fd : Option ℚ) (c : List Cell),
      (((ipfLoop ic mc tol fuel iter fd c).converged = true)
          ↔ (∃ j, j < fuel ∧ deltaAt ic mc c j < tol)) ∧
      ((ipfLoop ic mc tol fuel iter fd c).converged = true →
        ∃ j, j < fuel ∧ deltaAt ic mc c j < tol ∧
          (∀ m, m < j → ¬ deltaAt ic mc c m < tol) ∧
          ipfLoop ic mc tol fuel iter fd c
            = ⟨ipfIterate ic mc (j + 1) c, true, iter + (j + 1),
                some (deltaAt ic mc c j)⟩) ∧
      ((ipfLoop ic mc tol fuel iter fd c).converged = false →
        (ipfLoop ic mc tol fuel iter fd c
          = ⟨ipfIterate ic mc fuel c, false, iter + fuel,
              if fuel = 0 then fd else some (deltaAt ic mc c (fuel - 1))⟩) ∧
        (∀ j, j < fuel → ¬ deltaAt ic mc c j < tol)) := by
  intro fuel
  induction fuel with
  | zero =>
    intro iter fd c
    rw [ipfLoop_zero]
    refine ⟨⟨fun h => absurd h (by simp), ?_⟩, ?_, ?_⟩
    · rintro ⟨j, hj, -⟩
      exact absurd hj (Nat.not_lt_zero j)
    · intro h
      exact absurd h (by simp)
    · intro _
      refine ⟨?_, ?_⟩
      · rw [ipfIterate_zero]
        simp
      · intro j hj
        exact absurd hj (Nat.not_lt_zero j)
  | succ n ih =>
    intro iter fd c
    rw [ipfLoop_succ]
    by_cases hd : deltaAt ic mc c 0 < tol
    · rw [if_pos hd]
      refine ⟨⟨fun _ => ⟨0, Nat.succ_pos n, hd⟩, fun _ => rfl⟩, ?_, ?_⟩
      · intro _
        refine ⟨0, Nat.succ_pos n, hd, fun m hm => absurd hm (Nat.not_lt_zero m), ?_⟩
        rw [ipfIterate_succ_inner, ipfIterate_zero, Nat.zero_add]
      · intro h
        exact absurd h (by simp)
    · rw [if_neg hd]
      obtain ⟨ih1, ih2, ih3⟩ := ih (iter + 1) (some (deltaAt ic mc c 0)) (oneIter ic mc c)
      refine ⟨?_, ?_, ?_⟩
      · constructor
        · intro h
          rcases ih1.mp h with ⟨j, hj, hdj⟩
          rw [deltaAt_shift] at hdj
          exact ⟨j + 1, Nat.succ_lt_succ hj, hdj⟩
        · rintro ⟨j, hj, hdj⟩
          cases j with
          | zero => exact absurd hdj hd
          | succ k =>
            refine ih1.mpr ⟨k, Nat.lt_of_succ_lt_succ hj, ?_⟩
            rw [deltaAt_shift]
            exact hdj
      · intro h
        rcases ih2 h with ⟨j, hj, hdj, hmin, heq⟩
        rw [deltaAt_shift] at hdj
        refine ⟨j + 1, Nat.succ_lt_succ hj, hdj, ?_, ?_⟩
        · intro m hm
          cases m with
          | zero => exact hd
          | succ k =>
            intro hk
            apply hmin k (Nat.lt_of_succ_lt_succ hm)
            rw [deltaAt_shift]
            exact hk
        · rw [heq, ipfIterate_succ_inner ic mc (j + 1) c, deltaAt_shift]
          have harith : iter + 1 + (j + 1) = iter + (j + 1 + 1) := by omega
          rw [harith]
      · intro h
        obtain ⟨heq, hmin⟩ := ih3 h
        refine ⟨?_, ?_⟩
        · rw [heq, ipfIterate_succ_inner ic mc n c]
          have harith : iter + 1 + n = iter + (n + 1) := by omega
          rw [harith]
          cases n with
          | zero =>
            simp only [Nat.add_sub_cancel]
            rw [deltaAt_zero]
            simp
          | succ k =>
            simp only [Nat.succ_ne_zero, if_false, Nat.add_sub_cancel]
            rw [deltaAt_shift]
        · intro j hj
          cases j with
          | zero => exact hd
          | succ k =>
            intro hk
            apply hmin k (Nat.lt_of_succ_lt_succ hj)
            rw [deltaAt_shift]
            exact hk
/-- C5: the solver's converged flag is true iff some iteration `i ≤ max_iter`
produced Δ < tol; the loop stops at the first such `i`, with
`iterations_used = i` and `final_max_relative_change` that Δ; exhausting
`max_iter` without Δ < tol leaves `converged = false` while the partial
result for the year is still kept and included in the output. -/
theorem C5_convergence_flag (ic mc : String → String → ℚ) (tol : ℚ)
    (maxIter : Nat) (c : List Cell) :
    ((solveYear ic mc tol maxIter c).converged = true
      ↔ ∃ j, j < maxIter ∧ deltaAt ic mc c j < tol) ∧
    ((solveYear ic mc tol maxIter c).converged = true →
      ∃ j, j < maxIter ∧ deltaAt ic mc c j < tol ∧
        (∀ m, m < j → ¬ deltaAt ic mc c m < tol) ∧
        solveYear ic mc tol maxIter c
          = ⟨ipfIterate ic mc (j + 1) c, true, j + 1, some (deltaAt ic mc c j)⟩) ∧
    ((solveYear ic mc tol maxIter c).converged = false →
      (solveYear ic mc tol maxIter c
        = ⟨ipfIterate ic mc maxIter c, false, maxIter,
            if maxIter = 0 then none
            else some (deltaAt ic mc c (maxIter - 1))⟩) ∧
      (∀ j, j < maxIter → ¬ deltaAt ic mc c j < tol)) ∧
    (∀ (alloc : List Cell) (ci cm : List MarginRow) (y : Int), y ∈ yearsOf alloc →
      (y, solveYear (marginLookup ci y) (marginLookup cm y) tol maxIter
          (alloc.filter (fun x => decide (x.year = y))))
        ∈ run_ipf alloc ci cm maxIter tol) := by
  obtain ⟨h1, h2, h3⟩ := ipfLoop_spec ic mc tol maxIter 0 none c
  have hsy : solveYear ic mc tol maxIter c = ipfLoop ic mc tol maxIter 0 none c := rfl
  rw [hsy]
  refine ⟨h1, ?_, ?_, fun alloc ci cm y hy => solve_mem_run alloc ci cm maxIter tol y hy⟩
  · intro h
    rcases h2 h with ⟨j, hj, hdj, hmin, heq⟩
    refine ⟨j, hj, hdj, hmin, ?_⟩
    rw [heq]
    have harith : 0 + (j + 1) = j + 1 := by omega
    rw [harith]
  · intro h
    obtain ⟨heq, hmin⟩ := h3 h
    refine ⟨?_, hmin⟩
    rw [heq]
    have harith : 0 + maxIter = maxIter := by omega
    rw [harith]

/-- Witness for C5 at the concrete example data. -/
theorem C5_convergence_flag_witness :
    (2014 : Int) ∈ yearsOf exCells ∧
    (2014, solveYear (marginLookup exCI 2014) (marginLookup exCM 2014) (1 / 1000) 3
        (exCells.filter (fun x => decide (x.year = 2014))))
      ∈ run_ipf exCells exCI exCM 3 (1 / 1000) :=
  ⟨by decide,
   (C5_convergence_flag (marginLookup exCI 2014) (marginLookup exCM 2014) (1 / 1000) 3
      (exCells.filter (fun x => decide (x.year = 2014)))).2.2.2
     exCells exCI exCM 2014 (by decide)⟩
/-- Characterization of year lookup in the output of the driver, for an
arbitrary visiting order of the years. -/
lemma lookup_runIPFOrder (alloc : List Cell) (ci cm : List MarginRow)
    (maxIter : Nat) (tol : ℚ) :
    ∀ (ys : List Int) (y : Int),
      List.lookup y (runIPFOrder ys alloc ci cm maxIter tol)
        = if y ∈ ys ∧ (alloc.filter (fun x => decide (x.year = y))).isEmpty = false
          then some (solveYear (marginLookup ci y) (marginLookup cm y) tol maxIter
                (alloc.filter (fun x => decide (x.year = y))))
          else none := by
  intro ys y
  induction ys with
  | nil => simp [runIPFOrder]
  | cons z t ih =>
    unfold runIPFOrder at ih ⊢
    rw [List.filterMap_cons]
    by_cases hz : (alloc.filter (fun x => decide (x.year = z))).isEmpty
    · rw [show (if (alloc.filter (fun x => decide (x.year = z))).isEmpty = true then none
          else some (z, solveYear (marginLookup ci z) (marginLookup cm z) tol maxIter
            (alloc.filter (fun x => decide (x.year = z))))) = none from by rw [hz]; rfl]
      rw [ih]
      by_cases hyz : y = z
      · subst hyz
        rw [hz]
        simp
      · simp [List.mem_cons, hyz]
    · rw [show (if (alloc.filter (fun x => decide (x.year = z))).isEmpty = true then none
          else some (z, solveYear (marginLookup ci z) (marginLookup cm z) tol maxIter
            (alloc.filter (fun x => decide (x.year = z))))) = some
              (z, solveYear (marginLookup ci z) (marginLookup cm z) tol maxIter
                (alloc.filter (fun x => decide (x.year = z)))) from by
        rw [Bool.eq_false_iff.mpr hz]
        rfl]
      rw [List.lookup_cons]
      by_cases hyz : y = z
      · subst hyz
        rw [show (y == y) = true from beq_self_eq_true y]
        have hf : (alloc.filter (fun x => decide (x.year = y))).isEmpty = false :=
          Bool.eq_false_iff.mpr hz
        simp [hf]
      · rw [show (y == z) = false from beq_eq_false_iff_ne.mpr hyz]
        rw [ih]
        simp [List.mem_cons, hyz]

/-- C7: the per-year solver results are identical regardless of the order
in which the years are processed; the solve of a year-partition depends
only on that year's slice of the data. -/
theorem C7_partition_independence (alloc : List Cell) (ci cm : List MarginRow)
    (maxIter : Nat) (tol : ℚ) :
    (run_ipf alloc ci cm maxIter tol
      = runIPFOrder (yearsOf alloc) alloc ci cm maxIter tol) ∧
    (∀ (ys1 ys2 : List Int) (y : Int), y ∈ ys1 → y ∈ ys2 →
      List.lookup y (runIPFOrder ys1 alloc ci cm maxIter tol)
        = List.lookup y (runIPFOrder ys2 alloc ci cm maxIter tol)) ∧
    (∀ (ys : List Int) (y : Int), y ∈ ys →
      (alloc.filter (fun x => decide (x.year = y))).isEmpty = false →
      List.lookup y (runIPFOrder ys alloc ci cm maxIter tol)
        = some (solveYear (marginLookup ci y) (marginLookup cm y) tol maxIter
            (alloc.filter (fun x => decide (x.year = y))))) := by
  refine ⟨rfl, ?_, ?_⟩
  · intro ys1 ys2 y h1 h2
    rw [lookup_runIPFOrder, lookup_runIPFOrder]
    by_cases hne : (alloc.filter (fun x => decide (x.year = y))).isEmpty = false
    · rw [if_pos ⟨h1, hne⟩, if_pos ⟨h2, hne⟩]
    · rw [if_neg (fun hc => hne hc.2), if_neg (fun hc => hne hc.2)]
  · intro ys y hy hne
    rw [lookup_runIPFOrder, if_pos ⟨hy, hne⟩]

/-- Witness for C7: looking up year 2014 gives the same result under two
different processing orders. -/
theorem C7_partition_independence_witness :
    (2014 : Int) ∈ [(2014 : Int), 2015] ∧ (2014 : Int) ∈ [(2015 : Int), 2014] ∧
    List.lookup (2014 : Int) (runIPFOrder [2014, 2015] exCells exCI exCM 3 (1 / 1000))
      = List.lookup (2014 : Int) (runIPFOrder [2015, 2014] exCells exCI exCM 3 (1 / 1000)) :=
  ⟨by decide, by decide,
   (C7_partition_independence exCells exCI exCM 3 (1 / 1000)).2.1
     [2014, 2015] [2015, 2014] 2014 (by decide) (by decide)⟩
/-- Counting by an indicator sum equals `countP`. -/
lemma sum_map_ite_one {α : Type} (l : List α) (P : α → Prop) [DecidablePred P] :
    (l.map (fun a => if P a then (1 : Nat) else 0)).sum
      = l.countP (fun a => decide (P a)) := by
  induction l with
  | nil => rfl
  | cons a t ih =>
    rw [List.map_cons, List.sum_cons, ih, List.countP_cons]
    by_cases h : P a <;> simp [h] <;> omega

/-- Two members both satisfying a predicate counted once are equal. -/
lemma eq_of_countP_one {α : Type} (l : List α) (p : α → Bool) (h1 : l.countP p = 1)
    (a b : α) (ha : a ∈ l) (hb : b ∈ l) (hpa : p a) (hpb : p b) : a = b := by
  rw [List.countP_eq_length_filter] at h1
  rcases List.length_eq_one.mp h1 with ⟨x, hx⟩
  have hax : a ∈ l.filter p := List.mem_filter.mpr ⟨ha, hpa⟩
  have hbx : b ∈ l.filter p := List.mem_filter.mpr ⟨hb, hpb⟩
  rw [hx] at hax hbx
  rw [List.mem_singleton.mp hax, List.mem_singleton.mp hbx]

/-- The sum of a constant over a list. -/
lemma sum_map_const_rat {α : Type} (l : List α) (k : ℚ) :
    (l.map (fun _ => k)).sum = l.length * k := by
  induction l with
  | nil => simp
  | cons a t ih =>
    rw [List.map_cons, List.sum_cons, ih, List.length_cons]
    push_cast
    ring

/-- C8: for every base observation and every county mapped to its rating
area, the initial allocation emits exactly one cell with
`estimate = enrollment × w` where `w = 1/n` for `n` the number of counties
of the rating area; the weights of the counties sharing a rating area sum
to 1 and each weight lies in (0, 1]. -/
theorem C8_initial_allocation (base : List BaseRow) (cw : List CWRow)
    (b : BaseRow) (w : CWRow)
    (hb : b ∈ base) (hw : w ∈ cw) (hra : w.rating_area = b.rating_area)
    (hb1 : base.countP (fun q => decide (q.year = b.year ∧
      q.rating_area = b.rating_area ∧ q.insurer = b.insurer ∧
      q.plan = b.plan ∧ q.metal_tier = b.metal_tier)) = 1)
    (hw1 : cw.countP (fun v => decide (v.county = w.county ∧
      v.rating_area = w.rating_area)) = 1) :
    ((initial_allocation base cw).countP
        (fun cl => decide (cl.year = b.year ∧ cl.county = w.county ∧
          cl.rating_area = b.rating_area ∧ cl.insurer = b.insurer ∧
          cl.plan = b.plan ∧ cl.metal_tier = b.metal_tier)) = 1) ∧
    (∀ cl ∈ initial_allocation base cw,
      cl.year = b.year → cl.county = w.county → cl.rating_area = b.rating_area →
      cl.insurer = b.insurer → cl.plan = b.plan → cl.metal_tier = b.metal_tier →
      cl.enrollment_est = b.enrollment * raWeight cw b.rating_area) ∧
    (0 < raWeight cw b.rating_area ∧ raWeight cw b.rating_area ≤ 1) ∧
    (((cw.filter (fun v => decide (v.rating_area = b.rating_area))).map
        (fun v => raWeight cw v.rating_area)).sum = 1) := by
  have hwf : w ∈ cw.filter (fun v => decide (v.rating_area = b.rating_area)) :=
    List.mem_filter.mpr ⟨hw, by simp [hra]⟩
  have npos : 0 < nPerRA cw b.rating_area :=
    List.length_pos.mpr (List.ne_nil_of_mem hwf)
  have ncast : (0 : ℚ) < (nPerRA cw b.rating_area : ℚ) := by
    exact_mod_cast npos
  refine ⟨?_, ?_, ⟨?_, ?_⟩, ?_⟩
  · unfold initial_allocation
    rw [List.countP_flatMap]
    have hkey : ∀ q ∈ base,
        (List.countP (fun cl => decide (cl.year = b.year ∧ cl.county = w.county ∧
            cl.rating_area = b.rating_area ∧ cl.insurer = b.insurer ∧
            cl.plan = b.plan ∧ cl.metal_tier = b.metal_tier)) ∘
          (fun q2 => (cw.filter (fun v => decide (v.rating_area = q2.rating_area))).map
            (fun v => (⟨q2.year, v.county, q2.rating_area, q2.insurer, q2.plan,
              q2.metal_tier, q2.enrollment * raWeight cw q2.rating_area⟩ : Cell)))) q
          = if (q.year = b.year ∧ q.rating_area = b.rating_area ∧
              q.insurer = b.insurer ∧ q.plan = b.plan ∧ q.metal_tier = b.metal_tier)
            then 1 else 0 := by
      intro q _
      simp only [Function.comp]
      rw [List.countP_map]
      by_cases hpq : (q.year = b.year ∧ q.rating_area = b.rating_area ∧
          q.insurer = b.insurer ∧ q.plan = b.plan ∧ q.metal_tier = b.metal_tier)
      · obtain ⟨e1, e2, e3, e4, e5⟩ := hpq
        rw [if_pos ⟨e1, e2, e3, e4, e5⟩, List.countP_filter]
        refine Eq.trans (List.countP_congr ?_) hw1
        intro v _
        simp [e1, e2, e3, e4, e5, hra]
      · rw [if_neg hpq]
        rw [List.countP_eq_zero]
        intro v _
        simp only [Function.comp, decide_eq_true_eq]
        rintro ⟨f1, -, f3, f4, f5, f6⟩
        exact hpq ⟨f1, f3, f4, f5, f6⟩
    rw [List.map_congr_left hkey, sum_map_ite_one]
    exact hb1
  · intro cl hcl h1 h2 h3 h4 h5 h6
    rcases List.mem_flatMap.mp hcl with ⟨q, hq, hcl2⟩
    rcases List.mem_map.mp hcl2 with ⟨v, hvf, rfl⟩
    simp only at h1 h3 h4 h5 h6 ⊢
    have hqb : q = b := by
      apply eq_of_countP_one base _ hb1 q b hq hb
      · simp [h1, h3, h4, h5, h6]
      · simp
    rw [hqb]
  · exact one_div_pos.mpr ncast
  · rw [raWeight, div_le_one ncast]
    exact_mod_cast npos
  · have hconst : (cw.filter (fun v => decide (v.rating_area = b.rating_area))).map
        (fun v => raWeight cw v.rating_area)
        = (cw.filter (fun v => decide (v.rating_area = b.rating_area))).map
            (fun _ => raWeight cw b.rating_area) := by
      apply List.map_congr_left
      intro v hv
      rcases List.mem_filter.mp hv with ⟨-, hvr⟩
      rw [of_decide_eq_true hvr]
    rw [hconst, sum_map_const_rat]
    show ((nPerRA cw b.rating_area : ℚ)) * raWeight cw b.rating_area = 1
    rw [raWeight]
    exact mul_one_div_cancel (ne_of_gt ncast)

/-- Witness for C8 at the concrete example data: one observation in a
rating area covering two counties, each with weight 1/2. -/
theorem C8_initial_allocation_witness :
    ((exBase : List BaseRow) = exBase) ∧
    0 < raWeight exCW 1 ∧ raWeight exCW 1 ≤ 1 :=
  ⟨rfl,
   ((C8_initial_allocation exBase exCW ⟨2014, 1, "A", "P", "X", 10⟩ ⟨"C", 1⟩
      (by simp [exBase]) (by simp [exCW]) rfl (by simp [exBase])
      (by simp [exCW, List.countP_cons])).2.2.1 : _)⟩
/-- Counterexample for C9: an input holding a negative insurer×county
target (-1) is not rejected; Step A multiplies it into the estimates
(the cell drops to exactly -1), the solver then runs to completion and
reports a normally converged year, and the clip turns the output into 0.
No hard failure is surfaced anywhere. -/
theorem C9_counterexample :
    ((estimates (stepA (marginLookup negCI 2014) negCells)).getD 0 0 = -1) ∧
    (run_ipf negCells negCI negCM 3 (1 / 1000)
      = [(2014, ⟨[⟨2014, "C", 1, "A", "P", "X", 0⟩], true, 2, some 0⟩)]) ∧
    (allocatedOutput negCells negCI negCM 3 (1 / 1000)
      = [⟨2014, "C", 1, "A", "P", "X", 0⟩]) := by
  have e1 : stepA (marginLookup negCI 2014) negCells
      = [⟨2014, "C", 1, "A", "P", "X", -1⟩] := by
    simp [stepA, applyIC, groupSumIC, negCells, marginLookup, negCI, eps]
    try norm_num
  have e2 : stepB (marginLookup negCM 2014) [(⟨2014, "C", 1, "A", "P", "X", -1⟩ : Cell)]
      = [⟨2014, "C", 1, "A", "P", "X", 0⟩] := by
    simp [stepB, applyMC, groupSumMC, marginLookup, negCM, eps]
    try norm_num
  have e3 : oneIter (marginLookup negCI 2014) (marginLookup negCM 2014) negCells
      = [⟨2014, "C", 1, "A", "P", "X", 0⟩] := by
    unfold oneIter
    rw [e1, e2]
  have e4 : maxRelChange (estimates negCells)
      (estimates [(⟨2014, "C", 1, "A", "P", "X", 0⟩ : Cell)]) = 1 := by
    norm_num [maxRelChange, estimates, negCells, eps, List.filterMap_cons, List.filterMap_nil]
  have e5 : stepA (marginLookup negCI 2014) [(⟨2014, "C", 1, "A", "P", "X", 0⟩ : Cell)]
      = [⟨2014, "C", 1, "A", "P", "X", 0⟩] := by
    simp [stepA, applyIC, groupSumIC, marginLookup, negCI, eps]
    try norm_num
  have e6 : stepB (marginLookup negCM 2014) [(⟨2014, "C", 1, "A", "P", "X", 0⟩ : Cell)]
      = [⟨2014, "C", 1, "A", "P", "X", 0⟩] := by
    simp [stepB, applyMC, groupSumMC, marginLookup, negCM, eps]
    try norm_num
  have e7 : oneIter (marginLookup negCI 2014) (marginLookup negCM 2014)
      [(⟨2014, "C", 1, "A", "P", "X", 0⟩ : Cell)] = [⟨2014, "C", 1, "A", "P", "X", 0⟩] := by
    unfold oneIter
    rw [e5, e6]
  have e8 : maxRelChange (estimates [(⟨2014, "C", 1, "A", "P", "X", 0⟩ : Cell)])
      (estimates [(⟨2014, "C", 1, "A", "P", "X", 0⟩ : Cell)]) = 0 := by
    norm_num [maxRelChange, estimates, eps, List.filterMap_cons, List.filterMap_nil]
  have hsolve : solveYear (marginLookup negCI 2014) (marginLookup negCM 2014)
      (1 / 1000) 3 negCells
      = ⟨[⟨2014, "C", 1, "A", "P", "X", 0⟩], true, 2, some 0⟩ := by
    rw [show solveYear (marginLookup negCI 2014) (marginLookup negCM 2014) (1 / 1000) 3 negCells
        = ipfLoop (marginLookup negCI 2014) (marginLookup negCM 2014) (1 / 1000) 3 0 none negCells
      from rfl]
    rw [show (3 : Nat) = 2 + 1 from rfl, ipfLoop_succ, deltaAt_zero, e3, e4]
    rw [if_neg (by norm_num)]
    rw [show (2 : Nat) = 1 + 1 from rfl, ipfLoop_succ, deltaAt_zero, e7, e8]
    rw [if_pos (by norm_num)]
    try rw [e7]
  have hyears : yearsOf negCells = [2014] := by decide
  have hdf : negCells.filter (fun x => decide (x.year = 2014)) = negCells := by
    simp [negCells]
  have hne : negCells.isEmpty = false := by simp [negCells]
  have hrun : run_ipf negCells negCI negCM 3 (1 / 1000)
      = [(2014, ⟨[⟨2014, "C", 1, "A", "P", "X", 0⟩], true, 2, some 0⟩)] := by
    show runIPFOrder (yearsOf negCells) negCells negCI negCM 3 (1 / 1000) = _
    rw [hyears]
    simp only [runIPFOrder, List.filterMap_cons, List.filterMap_nil, hdf, hne, hsolve]
    try rfl
  refine ⟨?_, hrun, ?_⟩
  · rw [e1]
    simp [estimates]
  · unfold allocatedOutput
    rw [hrun]
    simp [clipCells]

/-- C9 amended: negative margin targets are not surfaced as failures; the
scaling factor `target/sum` is applied without any sign check on the
target, and only the final output clip guarantees non-negative estimates. -/
theorem C9_negative_targets_absorbed (ic : String → String → ℚ)
    (cells : List Cell) (x : Cell)
    (h : eps < groupSumIC cells x.insurer x.county) :
    ((applyIC ic cells x).enrollment_est
      = x.enrollment_est * (ic x.insurer x.county / groupSumIC cells x.insurer x.county)) ∧
    (∀ (alloc : List Cell) (ci cm : List MarginRow) (mi : Nat) (t : ℚ),
      ∀ y ∈ allocatedOutput alloc ci cm mi t, 0 ≤ y.enrollment_est) := by
  constructor
  · simp [applyIC, if_pos h]
  · intro alloc ci cm mi t y hy
    simp only [allocatedOutput, clipCells] at hy
    rcases List.mem_map.mp hy with ⟨z, hz, rfl⟩
    exact le_max_right _ _

/-- Witness for the amended C9: with the negative-target data, Step A
multiplies the cell by `-1/1`. -/
theorem C9_negative_targets_absorbed_witness :
    eps < groupSumIC negCells "A" "C" ∧
    (applyIC (marginLookup negCI 2014) negCells ⟨2014, "C", 1, "A", "P", "X", 1⟩).enrollment_est
      = 1 * (marginLookup negCI 2014 "A" "C" / groupSumIC negCells "A" "C") :=
  ⟨by simp [eps, groupSumIC, negCells]; try norm_num,
   (C9_negative_targets_absorbed (marginLookup negCI 2014) negCells
      ⟨2014, "C", 1, "A", "P", "X", 1⟩
      (by simp [eps, groupSumIC, negCells]; try norm_num)).1⟩
/-- Counterexample for C6: on `exCells` the solver declares convergence at
iteration 1 with Δ = 1/20000000001 < tol = 1/1000 (the sub-`eps` cell is
excluded from Δ while Step B pumps it from `eps` to 1000); one additional
full iteration then changes the first cell — whose estimate before the
extra iteration exceeds `eps` — by a relative amount of about 0.998,
far above `tol`. -/
theorem C6_counterexample :
    (exRun.converged = true) ∧
    (exRun.iterations = 1) ∧
    (exRun.finalDelta = some (1 / 20000000001)) ∧
    ((1 : ℚ) / 20000000001 < 1 / 1000) ∧
    (eps < (estimates exRun.cells).getD 0 0) ∧
    ¬ (|(estimates (oneIter exIC exMC exRun.cells)).getD 0 0
          - (estimates exRun.cells).getD 0 0| / (estimates exRun.cells).getD 0 0
        < 1 / 1000) := by
  have a1 : stepA exIC exCells
      = [⟨2014, "C", 1, "A", "P", "X", 100000000000 / 10000000001⟩,
         ⟨2014, "C", 1, "A", "P", "Y", 10 / 10000000001⟩,
         ⟨2014, "C", 1, "B", "P", "X", 10⟩] := by
    simp [stepA, applyIC, groupSumIC, exCells, exIC, marginLookup, exCI, eps]
    try norm_num
  have a2 : stepB exMC
      [(⟨2014, "C", 1, "A", "P", "X", 100000000000 / 10000000001⟩ : Cell),
       ⟨2014, "C", 1, "A", "P", "Y", 10 / 10000000001⟩,
       ⟨2014, "C", 1, "B", "P", "X", 10⟩]
      = [⟨2014, "C", 1, "A", "P", "X", 20000000000 / 20000000001⟩,
         ⟨2014, "C", 1, "A", "P", "Y", 1000⟩,
         ⟨2014, "C", 1, "B", "P", "X", 20000000002 / 20000000001⟩] := by
    simp [stepB, applyMC, groupSumMC, exMC, marginLookup, exCM, eps]
    try norm_num
  have a3 : oneIter exIC exMC exCells
      = [⟨2014, "C", 1, "A", "P", "X", 20000000000 / 20000000001⟩,
         ⟨2014, "C", 1, "A", "P", "Y", 1000⟩,
         ⟨2014, "C", 1, "B", "P", "X", 20000000002 / 20000000001⟩] := by
    unfold oneIter
    rw [a1, a2]
  have a4 : maxRelChange (estimates exCells)
      (estimates [(⟨2014, "C", 1, "A", "P", "X", 20000000000 / 20000000001⟩ : Cell),
         ⟨2014, "C", 1, "A", "P", "Y", 1000⟩,
         ⟨2014, "C", 1, "B", "P", "X", 20000000002 / 20000000001⟩])
      = 1 / 20000000001 := by
    norm_num [maxRelChange, estimates, exCells, eps, List.filterMap_cons,
      List.filterMap_nil, max_def]
  have hrun : exRun
      = ⟨[⟨2014, "C", 1, "A", "P", "X", 20000000000 / 20000000001⟩,
          ⟨2014, "C", 1, "A", "P", "Y", 1000⟩,
          ⟨2014, "C", 1, "B", "P", "X", 20000000002 / 20000000001⟩],
         true, 1, some (1 / 20000000001)⟩ := by
    rw [show exRun = ipfLoop exIC exMC (1 / 1000) 3 0 none exCells from rfl]
    rw [show (3 : Nat) = 2 + 1 from rfl, ipfLoop_succ, deltaAt_zero, a3, a4]
    rw [if_pos (by norm_num)]
    try rw [a3]
  have b1 : stepA exIC
      [(⟨2014, "C", 1, "A", "P", "X", 20000000000 / 20000000001⟩ : Cell),
       ⟨2014, "C", 1, "A", "P", "Y", 1000⟩,
       ⟨2014, "C", 1, "B", "P", "X", 20000000002 / 20000000001⟩]
      = [⟨2014, "C", 1, "A", "P", "X", 200000000 / 20020000001⟩,
         ⟨2014, "C", 1, "A", "P", "Y", 200000000010 / 20020000001⟩,
         ⟨2014, "C", 1, "B", "P", "X", 10⟩] := by
    simp [stepA, applyIC, groupSumIC, exIC, marginLookup, exCI, eps]
    try norm_num
  have b2 : stepB exMC
      [(⟨2014, "C", 1, "A", "P", "X", 200000000 / 20020000001⟩ : Cell),
       ⟨2014, "C", 1, "A", "P", "Y", 200000000010 / 20020000001⟩,
       ⟨2014, "C", 1, "B", "P", "X", 10⟩]
      = [⟨2014, "C", 1, "A", "P", "X", 40000000 / 20040000001⟩,
         ⟨2014, "C", 1, "A", "P", "Y", 1000⟩,
         ⟨2014, "C", 1, "B", "P", "X", 40040000002 / 20040000001⟩] := by
    simp [stepB, applyMC, groupSumMC, exMC, marginLookup, exCM, eps]
    try norm_num
  have b3 : oneIter exIC exMC
      [(⟨2014, "C", 1, "A", "P", "X", 20000000000 / 20000000001⟩ : Cell),
       ⟨2014, "C", 1, "A", "P", "Y", 1000⟩,
       ⟨2014, "C", 1, "B", "P", "X", 20000000002 / 20000000001⟩]
      = [⟨2014, "C", 1, "A", "P", "X", 40000000 / 20040000001⟩,
         ⟨2014, "C", 1, "A", "P", "Y", 1000⟩,
         ⟨2014, "C", 1, "B", "P", "X", 40040000002 / 20040000001⟩] := by
    unfold oneIter
    rw [b1, b2]
  rw [hrun]
  refine ⟨rfl, rfl, rfl, by norm_num, ?_, ?_⟩
  · simp [estimates, eps]
    try norm_num
  · rw [b3]
    simp only [estimates, List.map_cons, List.getD_cons_zero]
    rw [abs_of_neg (by norm_num), neg_sub]
    norm_num

/-- C6 amended: applying one more solver iteration changes every estimate
(of a cell above `eps`) by less than `tol` when the converged table is an
exact fixed point of the iteration map; mere `tol`-convergence does not
bound the next iteration's relative change, because cells at or below
`eps` are excluded from Δ yet can inject arbitrary mass. -/
theorem C6_fixed_point_idempotent (ic mc : String → String → ℚ) (tol : ℚ)
    (c : List Cell) (hfix : oneIter ic mc c = c) (htol : 0 < tol) (i : Nat)
    (hi : eps < (estimates c).getD i 0) :
    |(estimates (oneIter ic mc c)).getD i 0 - (estimates c).getD i 0|
      / (estimates c).getD i 0 < tol := by
  rw [hfix, sub_self, abs_zero, zero_div]
  exact htol

/-- Witness for the amended C6 at a concrete exact fixed point. -/
theorem C6_fixed_point_idempotent_witness :
    oneIter (marginLookup fixCI 2014) (marginLookup fixCM 2014) fixCells = fixCells ∧
    (0 : ℚ) < 1 ∧ eps < (estimates fixCells).getD 0 0 ∧
    |(estimates (oneIter (marginLookup fixCI 2014) (marginLookup fixCM 2014) fixCells)).getD 0 0
        - (estimates fixCells).getD 0 0| / (estimates fixCells).getD 0 0 < 1 := by
  have hfix : oneIter (marginLookup fixCI 2014) (marginLookup fixCM 2014) fixCells
      = fixCells := by
    unfold oneIter
    simp [stepA, stepB, applyIC, applyMC, groupSumIC, groupSumMC, marginLookup,
      fixCI, fixCM, fixCells, eps]
    try norm_num
  have hi : eps < (estimates fixCells).getD 0 0 := by
    simp [estimates, fixCells, eps]
    try norm_num
  exact ⟨hfix, by norm_num,  hi,
    C6_fixed_point_idempotent (marginLookup fixCI 2014) (marginLookup fixCM 2014) 1
      fixCells hfix (by norm_num) 0 hi⟩

end IPF
